import Mathlib

/-!
Shallow embedding of `src/graph_digitizer.py` (class `GraphDigitizer`).

Python floats are modelled as real numbers; numpy arrays as lists of reals;
exceptions (`ValueError`) as `Except`; tkinter dialog answers as explicit
arguments of the event handlers.  The external library functions used by the
source are given their mathematical definitions:
`numpy.polyfit(x, y, 1)` is ordinary least squares via the normal equations,
`statistics.NormalDist().cdf` is the standard normal cumulative distribution
function (integral of the Gaussian density), and `inv_cdf` its inverse on
(0, 1).
-/

open MeasureTheory

/-- Axis scale kind; the source stores the strings "linear" / "log" /
"probability" in `x_scale_mode` / `y_scale_mode` (set in `_select_scale_mode`).
Embedding the mode as an inductive type makes the
`scale_mode not in ("linear", "log", "probability")` branch of `_fit_axis`
unreachable by construction. -/
inductive ScaleMode
  | linear
  | log
  | probability
deriving DecidableEq

/-- Session mode; the source stores the strings "CALIB" / "DATA" in
`self.mode`. -/
inductive Mode
  | CALIB
  | DATA
deriving DecidableEq

/-- Which axis a validation error refers to (the source interpolates the axis
name into the `ValueError` message of `_validate_calibration_value`). -/
inductive AxisTag
  | x
  | y
deriving DecidableEq

/-- The two `ValueError`s of `_validate_calibration_value`, tagged with the
axis they name. -/
inductive DomainError
  | logRequiresPositive (axis : AxisTag)
  | probabilityOutOfRange (axis : AxisTag)
deriving DecidableEq

/-- The `ValueError`s raised while fitting an axis (`_fit_axis` /
`_convert_probability_values`). -/
inductive FitError
  | logRequiresPositive
  | probabilityOutOfRange
deriving DecidableEq

/-- The failures of `_solve_transform`: the explicit `< 2` check and a
`ValueError` escaping from `_fit_axis`. -/
inductive SolveError
  | insufficientData
  | fitFailed (e : FitError)
deriving DecidableEq

/-- Density of the standard normal distribution (the distribution of
`statistics.NormalDist()`, mean 0 and variance 1). -/
noncomputable def stdNormalPDF : ℝ → ℝ :=
  ProbabilityTheory.gaussianPDFReal 0 1

/-- Embeds `NORMAL_DIST.cdf` (`statistics.NormalDist().cdf`): the cumulative
distribution function of the standard normal distribution. -/
noncomputable def normalCDF (x : ℝ) : ℝ :=
  ∫ t in Set.Iic x, stdNormalPDF t

/-- Embeds `NORMAL_DIST.inv_cdf` (`statistics.NormalDist().inv_cdf`): the
inverse of `normalCDF` on the open unit interval (the probit function). -/
noncomputable def inv_cdf : ℝ → ℝ :=
  Function.invFun normalCDF

/-- Embeds `_probability_forward_transform`: element-wise `inv_cdf` over the
probability values. -/
noncomputable def probability_forward_transform (probs : List ℝ) : List ℝ :=
  probs.map inv_cdf

/-- Embeds `_probability_inverse_transform`: `NORMAL_DIST.cdf(value)`. -/
noncomputable def probability_inverse_transform (value : ℝ) : ℝ :=
  normalCDF value

/-- Embeds `numpy.polyfit(img_arr, target, 1)` as used by `_fit_axis`:
the ordinary-least-squares line `target = slope * img + intercept`, given in
closed form by the normal equations. -/
noncomputable def polyfit1 (xs ys : List ℝ) : ℝ × ℝ :=
  let n : ℝ := xs.length
  let sx := xs.sum
  let sy := ys.sum
  let sxx := (xs.map fun x => x * x).sum
  let sxy := ((xs.zip ys).map fun p => p.1 * p.2).sum
  let slope := (n * sxy - sx * sy) / (n * sxx - sx * sx)
  let intercept := (sy - slope * sx) / n
  (slope, intercept)

/-- Embeds `_convert_probability_values`: divide by 100 when the axis is in
percent, then reject any probability outside the open interval (0, 1). -/
noncomputable def convert_probability_values (isPercent : Bool) (values : List ℝ) :
    Except FitError (List ℝ) :=
  let probs := if isPercent then values.map (fun v => v / 100) else values
  if ∃ p ∈ probs, p ≤ 0 ∨ 1 ≤ p then .error .probabilityOutOfRange
  else .ok probs

/-- Embeds `_fit_axis`: linearize the actual values according to the axis's
scale mode (rejecting out-of-domain values), then least-squares fit the line
from image coordinates to linearized values. -/
noncomputable def fit_axis (mode : ScaleMode) (isPercent : Bool)
    (img_coords actual_values : List ℝ) : Except FitError (ℝ × ℝ) :=
  match mode with
  | .log =>
      if ∃ v ∈ actual_values, v ≤ 0 then .error .logRequiresPositive
      else .ok (polyfit1 img_coords (actual_values.map fun v => Real.logb 10 v))
  | .probability =>
      match convert_probability_values isPercent actual_values with
      | .error e => .error e
      | .ok probs => .ok (polyfit1 img_coords (probability_forward_transform probs))
  | .linear => .ok (polyfit1 img_coords actual_values)

/-- Embeds `_apply_axis_value`: apply the fitted affine map to a pixel
coordinate, then undo the linearization of the axis's scale mode. -/
noncomputable def apply_axis_value (mode : ScaleMode) (isPercent : Bool)
    (slope intercept coord : ℝ) : ℝ :=
  let value := slope * coord + intercept
  match mode with
  | .log => (10 : ℝ) ^ value
  | .probability =>
      let prob := probability_inverse_transform value
      if isPercent then prob * 100.0 else prob
  | .linear => value

/-- Element-wise linearization performed by `_fit_axis` on the actual values:
identity for a linear axis, `numpy.log10` for a log axis, and `inv_cdf` of the
(possibly percent-rescaled) probability for a probability axis. -/
noncomputable def linearize_value (mode : ScaleMode) (isPercent : Bool) (v : ℝ) : ℝ :=
  match mode with
  | .log => Real.logb 10 v
  | .probability => inv_cdf (if isPercent then v / 100 else v)
  | .linear => v

/-- Embeds `_validate_calibration_value`: raise for a non-positive value on a
log axis and for a probability outside the configured open interval. -/
noncomputable def validate_calibration_value (mode : ScaleMode) (isPercent : Bool)
    (axis : AxisTag) (value : ℝ) : Except DomainError Unit :=
  if mode = .log ∧ value ≤ 0 then .error (.logRequiresPositive axis)
  else
    let bounds : ℝ × ℝ := if isPercent then (0, 100) else (0, 1)
    if mode = .probability ∧ ¬(bounds.1 < value ∧ value < bounds.2) then
      .error (.probabilityOutOfRange axis)
    else .ok ()

/-- Spec-side domain predicate, for comparison with the source's
`_validate_calibration_value`: the true value lies strictly inside the axis's
valid domain (all reals for linear, positives for log, the open interval
(0, 1) or (0, 100) for probability). -/
def strictly_in_domain (mode : ScaleMode) (isPercent : Bool) (v : ℝ) : Prop :=
  match mode with
  | .linear => True
  | .log => 0 < v
  | .probability => if isPercent then 0 < v ∧ v < 100 else 0 < v ∧ v < 1

/-- The mutable state of the `GraphDigitizer` object relevant to the
calibration/transform engine: the fields initialised in
`GraphDigitizer.__init__` (lines 60-72 of the source). -/
structure DigitizerState where
  x_scale_mode : ScaleMode
  y_scale_mode : ScaleMode
  probability_is_percent_x : Bool
  probability_is_percent_y : Bool
  calib_pairs : List ((ℝ × ℝ) × (ℝ × ℝ))
  data_points : List (ℝ × ℝ)
  transform_x : ℝ × ℝ
  transform_y : ℝ × ℝ
  mode : Mode
  offset_x : ℝ
  offset_y : ℝ
  scale : ℝ
  orig_img : Option Unit
  image_id : Option Unit
  pan_start : Option (ℝ × ℝ)

/-- Embeds the field initialisation of `GraphDigitizer.__init__`: empty pair
and data lists, identity transforms, zero offsets, unit scale, mode "CALIB",
no image loaded and no pan in progress.  The scale modes and probability
units are the ones chosen in `_select_scale_mode` /
`_configure_probability_units`. -/
noncomputable def init_state (xm ym : ScaleMode) (px py : Bool) : DigitizerState :=
  { x_scale_mode := xm
    y_scale_mode := ym
    probability_is_percent_x := px
    probability_is_percent_y := py
    calib_pairs := []
    data_points := []
    transform_x := (1.0, 0.0)
    transform_y := (1.0, 0.0)
    mode := .CALIB
    offset_x := 0
    offset_y := 0
    scale := 1.0
    orig_img := none
    image_id := none
    pan_start := none }

/-- Embeds `_screen_to_image`: undo the viewport offset and zoom scale,
degrading to the identity when the scale is zero. -/
noncomputable def screen_to_image (s : DigitizerState) (sx sy : ℝ) : ℝ × ℝ :=
  if s.scale = 0 then (sx, sy)
  else ((sx - s.offset_x) / s.scale, (sy - s.offset_y) / s.scale)

/-- Embeds `_apply_transform`: apply each axis's fitted map to the image
coordinate. -/
noncomputable def apply_transform (s : DigitizerState) (xi yi : ℝ) : ℝ × ℝ :=
  (apply_axis_value s.x_scale_mode s.probability_is_percent_x
      s.transform_x.1 s.transform_x.2 xi,
   apply_axis_value s.y_scale_mode s.probability_is_percent_y
      s.transform_y.1 s.transform_y.2 yi)

/-- Embeds the validation-and-append part of `_ask_true_coords`: validate the
x true value then the y true value with `_validate_calibration_value`; a
`ValueError` aborts without touching the state, otherwise the new calibration
pair is appended. -/
noncomputable def add_pair_checked (s : DigitizerState) (xi yi xt yt : ℝ) :
    Except DomainError DigitizerState :=
  match validate_calibration_value s.x_scale_mode s.probability_is_percent_x .x xt with
  | .error e => .error e
  | .ok _ =>
    match validate_calibration_value s.y_scale_mode s.probability_is_percent_y .y yt with
    | .error e => .error e
    | .ok _ => .ok { s with calib_pairs := s.calib_pairs ++ [((xi, yi), (xt, yt))] }

/-- Embeds the decision part of `_solve_transform`: fail when fewer than two
calibration pairs are recorded, otherwise fit both axes on the unzipped pair
components, failing if either fit raises. -/
noncomputable def solve_transform_attempt (s : DigitizerState) :
    Except SolveError ((ℝ × ℝ) × (ℝ × ℝ)) :=
  if s.calib_pairs.length < 2 then .error .insufficientData
  else
    match fit_axis s.x_scale_mode s.probability_is_percent_x
        (s.calib_pairs.map fun p => p.1.1) (s.calib_pairs.map fun p => p.2.1) with
    | .error e => .error (.fitFailed e)
    | .ok tx =>
      match fit_axis s.y_scale_mode s.probability_is_percent_y
          (s.calib_pairs.map fun p => p.1.2) (s.calib_pairs.map fun p => p.2.2) with
      | .error e => .error (.fitFailed e)
      | .ok ty => .ok (tx, ty)

/-- Embeds `_solve_transform`: on any failure an error dialog is shown and the
state is left untouched; on success the transforms are stored and the mode
flips to "DATA". -/
noncomputable def solve_transform (s : DigitizerState) : DigitizerState :=
  match solve_transform_attempt s with
  | .error _ => s
  | .ok (tx, ty) => { s with transform_x := tx, transform_y := ty, mode := .DATA }

/-- Embeds `_ask_true_coords`: `dialog` is the result of the coordinate
dialog (`None` when cancelled), `continueCalib` the answer to the
"continue calibrating?" question.  A validation error leaves the state
unchanged; otherwise the pair is appended and, when the user declines to
continue, `_solve_transform` runs. -/
noncomputable def ask_true_coords (s : DigitizerState) (xi yi : ℝ)
    (dialog : Option (ℝ × ℝ)) (continueCalib : Bool) : DigitizerState :=
  match dialog with
  | none => s
  | some (xt, yt) =>
    match add_pair_checked s xi yi xt yt with
    | .error _ => s
    | .ok s' => if continueCalib then s' else solve_transform s'

/-- Embeds `_on_click`: convert the event position to image coordinates; in
"CALIB" mode run the calibration input flow, in "DATA" mode append the
transformed point to the data list. -/
noncomputable def on_click (s : DigitizerState) (evx evy : ℝ)
    (dialog : Option (ℝ × ℝ)) (continueCalib : Bool) : DigitizerState :=
  let p := screen_to_image s evx evy
  match s.mode with
  | .CALIB => ask_true_coords s p.1 p.2 dialog continueCalib
  | .DATA => { s with data_points := s.data_points ++ [apply_transform s p.1 p.2] }

/-- Embeds `_on_middle_press`: record the pan anchor. -/
noncomputable def on_middle_press (s : DigitizerState) (evx evy : ℝ) : DigitizerState :=
  { s with pan_start := some (evx, evy) }

/-- Embeds `_on_middle_drag`: when a pan is in progress and an image is
loaded, shift both offsets by the drag delta and re-anchor. -/
noncomputable def on_middle_drag (s : DigitizerState) (evx evy : ℝ) : DigitizerState :=
  match s.pan_start, s.image_id with
  | some (px, py), some _ =>
      let dx := evx - px
      let dy := evy - py
      { s with offset_x := s.offset_x + dx
               offset_y := s.offset_y + dy
               pan_start := some (evx, evy) }
  | _, _ => s

/-- Embeds `_on_middle_release`: clear the pan anchor. -/
noncomputable def on_middle_release (s : DigitizerState) : DigitizerState :=
  { s with pan_start := none }

/-- Embeds `_on_zoom`: when an image is loaded, multiply the scale by 1.1 (or
its reciprocal), clamp it to [0.1, 10], and recompute the offsets so that the
image point under the cursor stays fixed on screen.  `zoomIn` stands for the
decoded wheel direction (`ev.num == 4` / `ev.delta > 0`). -/
noncomputable def on_zoom (s : DigitizerState) (zoomIn : Bool) (cx cy : ℝ) : DigitizerState :=
  match s.orig_img, s.image_id with
  | some _, some _ =>
      let old_scale := s.scale
      let factor : ℝ := 1.1
      let zoom_dir := if zoomIn then factor else 1 / factor
      let new_scale := max 0.1 (min (old_scale * zoom_dir) 10)
      let actual_zoom := new_scale / old_scale
      { s with scale := new_scale
               offset_x := cx - (cx - s.offset_x) * actual_zoom
               offset_y := cy - (cy - s.offset_y) * actual_zoom }
  | _, _ => s

/-- The user-interface events handled by the `GraphDigitizer` canvas
bindings, with the dialog answers a click may trigger attached. -/
inductive Event
  | click (evx evy : ℝ) (dialog : Option (ℝ × ℝ)) (continueCalib : Bool)
  | middlePress (evx evy : ℝ)
  | middleDrag (evx evy : ℝ)
  | middleRelease
  | wheel (zoomIn : Bool) (cx cy : ℝ)

/-- Dispatch of the canvas event bindings (`_build_ui`) to the handlers. -/
noncomputable def handle_event (s : DigitizerState) : Event → DigitizerState
  | .click evx evy dialog cont => on_click s evx evy dialog cont
  | .middlePress evx evy => on_middle_press s evx evy
  | .middleDrag evx evy => on_middle_drag s evx evy
  | .middleRelease => on_middle_release s
  | .wheel zoomIn cx cy => on_zoom s zoomIn cx cy

/-! ## Properties of the standard normal distribution functions -/

lemma stdNormalPDF_nonneg (t : ℝ) : 0 ≤ stdNormalPDF t :=
  ProbabilityTheory.gaussianPDFReal_nonneg 0 1 t

lemma integrable_stdNormalPDF : Integrable stdNormalPDF :=
  ProbabilityTheory.integrable_gaussianPDFReal 0 1

lemma integral_stdNormalPDF : ∫ t, stdNormalPDF t = 1 :=
  ProbabilityTheory.integral_gaussianPDFReal_eq_one 0 one_ne_zero

lemma normalCDF_eq_prim (x : ℝ) :
    normalCDF x = normalCDF 0 + ∫ t in (0:ℝ)..x, stdNormalPDF t := by
  rcases le_total 0 x with h | h
  · rw [intervalIntegral.integral_of_le h, normalCDF, normalCDF,
      ← MeasureTheory.setIntegral_union (Set.Iic_disjoint_Ioc le_rfl) measurableSet_Ioc
        integrable_stdNormalPDF.integrableOn integrable_stdNormalPDF.integrableOn,
      Set.Iic_union_Ioc_eq_Iic h]
  · have hu : ∫ t in Set.Iic (0:ℝ), stdNormalPDF t
        = (∫ t in Set.Iic x, stdNormalPDF t) + ∫ t in Set.Ioc x 0, stdNormalPDF t := by
      rw [← MeasureTheory.setIntegral_union (Set.Iic_disjoint_Ioc le_rfl) measurableSet_Ioc
        integrable_stdNormalPDF.integrableOn integrable_stdNormalPDF.integrableOn,
        Set.Iic_union_Ioc_eq_Iic h]
    have hs : ∫ t in (0:ℝ)..x, stdNormalPDF t = - ∫ t in Set.Ioc x 0, stdNormalPDF t := by
      rw [intervalIntegral.integral_symm, intervalIntegral.integral_of_le h]
    rw [normalCDF, normalCDF, hs]
    linarith

lemma continuous_normalCDF : Continuous normalCDF := by
  have h : normalCDF = fun x => normalCDF 0 + ∫ t in (0:ℝ)..x, stdNormalPDF t :=
    funext normalCDF_eq_prim
  rw [h]
  exact continuous_const.add (integrable_stdNormalPDF.continuous_primitive 0)

lemma tendsto_normalCDF_atTop : Filter.Tendsto normalCDF Filter.atTop (nhds 1) := by
  have h := MeasureTheory.tendsto_setIntegral_of_monotone (ι := ℝ) (s := Set.Iic)
    (f := stdNormalPDF) (μ := volume)
    (fun _ => measurableSet_Iic) (fun _ _ hij => Set.Iic_subset_Iic.2 hij)
    (by rw [Set.iUnion_Iic]; exact integrable_stdNormalPDF.integrableOn)
  rw [Set.iUnion_Iic, MeasureTheory.setIntegral_univ, integral_stdNormalPDF] at h
  exact h

lemma tendsto_normalCDF_atBot : Filter.Tendsto normalCDF Filter.atBot (nhds 0) := by
  have h := MeasureTheory.tendsto_setIntegral_of_antitone (ι := ℝ)
    (s := fun i => Set.Iic (-i)) (f := stdNormalPDF) (μ := volume)
    (fun _ => measurableSet_Iic)
    (fun _ _ hij => Set.Iic_subset_Iic.2 (neg_le_neg hij))
    ⟨0, integrable_stdNormalPDF.integrableOn⟩
  have hempty : (⋂ i : ℝ, Set.Iic (-i)) = ∅ := by
    ext y
    simp only [Set.mem_iInter, Set.mem_Iic, Set.mem_empty_iff_false, iff_false, not_forall,
      not_le]
    exact ⟨1 - y, by linarith⟩
  rw [hempty, MeasureTheory.setIntegral_empty] at h
  have h2 := h.comp Filter.tendsto_neg_atBot_atTop
  exact h2.congr fun x => by simp [Function.comp, normalCDF]

lemma exists_normalCDF_eq {p : ℝ} (h0 : 0 < p) (h1 : p < 1) : ∃ x, normalCDF x = p := by
  obtain ⟨a0, ha⟩ := Filter.eventually_atBot.1 (tendsto_normalCDF_atBot.eventually_lt_const h0)
  obtain ⟨b0, hb⟩ := Filter.eventually_atTop.1 (tendsto_normalCDF_atTop.eventually_const_lt h1)
  have hab : min a0 b0 ≤ max a0 b0 := min_le_max
  have hlo : normalCDF (min a0 b0) < p := ha _ (min_le_left _ _)
  have hhi : p < normalCDF (max a0 b0) := hb _ (le_max_right _ _)
  obtain ⟨x, _, hx⟩ := intermediate_value_Icc hab continuous_normalCDF.continuousOn
    ⟨hlo.le, hhi.le⟩
  exact ⟨x, hx⟩

lemma normalCDF_inv_cdf {p : ℝ} (h0 : 0 < p) (h1 : p < 1) : normalCDF (inv_cdf p) = p :=
  Function.invFun_eq (exists_normalCDF_eq h0 h1)

/-! ## The two-point least-squares fit interpolates -/

lemma polyfit1_pair {x1 x2 y1 y2 : ℝ} (hx : x1 ≠ x2) :
    (polyfit1 [x1, x2] [y1, y2]).1 * x1 + (polyfit1 [x1, x2] [y1, y2]).2 = y1 ∧
    (polyfit1 [x1, x2] [y1, y2]).1 * x2 + (polyfit1 [x1, x2] [y1, y2]).2 = y2 := by
  have h2 : x1 - x2 ≠ 0 := sub_ne_zero.2 hx
  have hD : 2 * (x1 * x1 + x2 * x2) - (x1 + x2) * (x1 + x2) ≠ 0 := by
    intro a
    apply h2
    have h0 : (x1 - x2) * (x1 - x2) = 0 := by linear_combination a
    exact mul_self_eq_zero.mp h0
  have e : polyfit1 [x1, x2] [y1, y2]
      = ((2 * (x1 * y1 + x2 * y2) - (x1 + x2) * (y1 + y2))
            / (2 * (x1 * x1 + x2 * x2) - (x1 + x2) * (x1 + x2)),
         ((y1 + y2) - ((2 * (x1 * y1 + x2 * y2) - (x1 + x2) * (y1 + y2))
            / (2 * (x1 * x1 + x2 * x2) - (x1 + x2) * (x1 + x2))) * (x1 + x2)) / 2) := by
    simp only [polyfit1, List.length_cons, List.length_nil, List.sum_cons, List.sum_nil,
      List.map_cons, List.map_nil, List.zip_cons_cons, List.zip_nil_right, Nat.cast_ofNat]
    norm_num
  rw [e]
  constructor <;>
  · simp only
    field_simp
    ring

/-! ## Unfolding equations for `apply_axis_value` -/

lemma apply_axis_value_linear (u : Bool) (a b c : ℝ) :
    apply_axis_value .linear u a b c = a * c + b := rfl

lemma apply_axis_value_log (u : Bool) (a b c : ℝ) :
    apply_axis_value .log u a b c = (10 : ℝ) ^ (a * c + b) := rfl

lemma apply_axis_value_probability (u : Bool) (a b c : ℝ) :
    apply_axis_value .probability u a b c =
      if u then normalCDF (a * c + b) * 100.0 else normalCDF (a * c + b) := rfl

/-- C1: for every axis kind and every pair of calibration observations with
distinct pixel coordinates (on the fitted axis) and in-domain true values,
fitting the axis on exactly those two observations succeeds and applying the
fitted transform to each calibration pixel reproduces that observation's
true value exactly. -/
theorem claim_C1_two_point_fit_reproduces (mode : ScaleMode) (isPercent : Bool)
    (p1 p2 v1 v2 : ℝ) (hp : p1 ≠ p2)
    (hv1 : strictly_in_domain mode isPercent v1)
    (hv2 : strictly_in_domain mode isPercent v2) :
    ∃ a b : ℝ, fit_axis mode isPercent [p1, p2] [v1, v2] = .ok (a, b) ∧
      apply_axis_value mode isPercent a b p1 = v1 ∧
      apply_axis_value mode isPercent a b p2 = v2 := by
  cases mode with
  | linear =>
      refine ⟨(polyfit1 [p1, p2] [v1, v2]).1, (polyfit1 [p1, p2] [v1, v2]).2, ?_, ?_, ?_⟩
      · simp [fit_axis]
      · simpa [apply_axis_value_linear] using (polyfit1_pair hp).1
      · simpa [apply_axis_value_linear] using (polyfit1_pair hp).2
  | log =>
      have h1 : (0 : ℝ) < v1 := hv1
      have h2 : (0 : ℝ) < v2 := hv2
      refine ⟨(polyfit1 [p1, p2] [Real.logb 10 v1, Real.logb 10 v2]).1,
        (polyfit1 [p1, p2] [Real.logb 10 v1, Real.logb 10 v2]).2, ?_, ?_, ?_⟩
      · simp only [fit_axis, List.map_cons, List.map_nil]
        rw [if_neg]
        rintro ⟨v, hv, hle⟩
        rcases List.mem_pair.mp hv with h | h <;> subst h <;> linarith
      · rw [apply_axis_value_log, (polyfit1_pair hp).1]
        exact Real.rpow_logb (by norm_num) (by norm_num) h1
      · rw [apply_axis_value_log, (polyfit1_pair hp).2]
        exact Real.rpow_logb (by norm_num) (by norm_num) h2
  | probability =>
      cases isPercent with
      | false =>
          have h1 : 0 < v1 ∧ v1 < 1 := by simpa [strictly_in_domain] using hv1
          have h2 : 0 < v2 ∧ v2 < 1 := by simpa [strictly_in_domain] using hv2
          refine ⟨(polyfit1 [p1, p2] [inv_cdf v1, inv_cdf v2]).1,
            (polyfit1 [p1, p2] [inv_cdf v1, inv_cdf v2]).2, ?_, ?_, ?_⟩
          · simp only [fit_axis, convert_probability_values, Bool.false_eq_true, if_false,
              probability_forward_transform, List.map_cons, List.map_nil]
            rw [if_neg]
            · rfl
            rintro ⟨v, hv, hle⟩
            rcases List.mem_pair.mp hv with h | h <;> subst h <;>
              rcases hle with h' | h' <;> linarith [h1.1, h1.2, h2.1, h2.2]
          · rw [apply_axis_value_probability, if_neg (by simp), (polyfit1_pair hp).1]
            exact normalCDF_inv_cdf h1.1 h1.2
          · rw [apply_axis_value_probability, if_neg (by simp), (polyfit1_pair hp).2]
            exact normalCDF_inv_cdf h2.1 h2.2
      | true =>
          have h1 : 0 < v1 ∧ v1 < 100 := by simpa [strictly_in_domain] using hv1
          have h2 : 0 < v2 ∧ v2 < 100 := by simpa [strictly_in_domain] using hv2
          have s1 : 0 < v1 / 100 ∧ v1 / 100 < 1 :=
            ⟨div_pos h1.1 (by norm_num), (div_lt_one (by norm_num)).2 h1.2⟩
          have s2 : 0 < v2 / 100 ∧ v2 / 100 < 1 :=
            ⟨div_pos h2.1 (by norm_num), (div_lt_one (by norm_num)).2 h2.2⟩
          refine ⟨(polyfit1 [p1, p2] [inv_cdf (v1 / 100), inv_cdf (v2 / 100)]).1,
            (polyfit1 [p1, p2] [inv_cdf (v1 / 100), inv_cdf (v2 / 100)]).2, ?_, ?_, ?_⟩
          · simp only [fit_axis, convert_probability_values, if_true,
              probability_forward_transform, List.map_cons, List.map_nil]
            rw [if_neg]
            · rfl
            rintro ⟨v, hv, hle⟩
            rcases List.mem_pair.mp hv with h | h <;> subst h <;>
              rcases hle with h' | h' <;> linarith [s1.1, s1.2, s2.1, s2.2]
          · rw [apply_axis_value_probability, if_pos rfl, (polyfit1_pair hp).1,
              normalCDF_inv_cdf s1.1 s1.2]
            norm_num
          · rw [apply_axis_value_probability, if_pos rfl, (polyfit1_pair hp).2,
              normalCDF_inv_cdf s2.1 s2.2]
            norm_num

/-- Witness for C1: a concrete two-point log-axis fit (pixels 0 and 100,
true values 1 and 100) satisfies the hypotheses and hence is reproduced. -/
theorem claim_C1_witness :
    (0 : ℝ) ≠ 100 ∧ strictly_in_domain .log false 1 ∧ strictly_in_domain .log false 100 ∧
    ∃ a b : ℝ, fit_axis .log false [(0 : ℝ), 100] [1, 100] = .ok (a, b) ∧
      apply_axis_value .log false a b 0 = 1 ∧
      apply_axis_value .log false a b 100 = 100 :=
  ⟨by norm_num, by norm_num [strictly_in_domain], by norm_num [strictly_in_domain],
    claim_C1_two_point_fit_reproduces .log false 0 100 1 100 (by norm_num)
      (by norm_num [strictly_in_domain]) (by norm_num [strictly_in_domain])⟩

/-- C2: for every axis kind and every value strictly inside that kind's
domain, undoing the linearization (via `_apply_axis_value` with the identity
affine map) after linearizing (as `_fit_axis` does, percent scaling included)
returns the original value. -/
theorem claim_C2_delinearize_linearize (mode : ScaleMode) (isPercent : Bool)
    (v : ℝ) (hv : strictly_in_domain mode isPercent v) :
    apply_axis_value mode isPercent 1 0 (linearize_value mode isPercent v) = v := by
  cases mode with
  | linear => simp [apply_axis_value_linear, linearize_value]
  | log =>
      have h : (0 : ℝ) < v := hv
      rw [apply_axis_value_log, linearize_value]
      rw [one_mul, add_zero]
      exact Real.rpow_logb (by norm_num) (by norm_num) h
  | probability =>
      cases isPercent with
      | false =>
          have h : 0 < v ∧ v < 1 := by simpa [strictly_in_domain] using hv
          rw [apply_axis_value_probability, if_neg (by simp), linearize_value]
          rw [one_mul, add_zero, if_neg (by simp)]
          exact normalCDF_inv_cdf h.1 h.2
      | true =>
          have h : 0 < v ∧ v < 100 := by simpa [strictly_in_domain] using hv
          rw [apply_axis_value_probability, if_pos rfl, linearize_value]
          rw [one_mul, add_zero, if_pos rfl,
            normalCDF_inv_cdf (div_pos h.1 (by norm_num)) ((div_lt_one (by norm_num)).2 h.2)]
          norm_num

/-- Witness for C2: the probability axis in percent unit at the in-domain
value 50 round-trips. -/
theorem claim_C2_witness :
    strictly_in_domain .probability true 50 ∧
    apply_axis_value .probability true 1 0 (linearize_value .probability true 50) = 50 :=
  ⟨by norm_num [strictly_in_domain],
    claim_C2_delinearize_linearize .probability true 50 (by norm_num [strictly_in_domain])⟩

/-- C3: with a linear x axis and calibration x-components pixel 0 -> true 0,
pixel 100 -> true 10, pixel 0 -> true 0, the least-squares fit yields slope
0.1 and intercept 0, and applying the fitted transform to pixel 50 yields the
real value 5.0. -/
theorem claim_C3_linear_scenario :
    fit_axis .linear false [0, 100, 0] [0, 10, 0] = .ok (0.1, 0) ∧
    apply_axis_value .linear false 0.1 0 50 = 5.0 := by
  constructor
  · simp only [fit_axis, polyfit1, List.length_cons, List.length_nil, List.sum_cons,
      List.sum_nil, List.map_cons, List.map_nil, List.zip_cons_cons, List.zip_nil_right,
      Except.ok.injEq, Prod.mk.injEq]
    norm_num
  · rw [apply_axis_value_linear]
    norm_num

/-! ## Validation of calibration values -/

lemma validate_eq_ok_iff (mode : ScaleMode) (u : Bool) (ax : AxisTag) (v : ℝ) :
    validate_calibration_value mode u ax v = .ok () ↔ strictly_in_domain mode u v := by
  cases mode <;> cases u <;>
    simp only [validate_calibration_value, strictly_in_domain] <;>
    split_ifs with h1 h2 <;>
    simp_all

lemma add_pair_checked_cases (s : DigitizerState) (xi yi xt yt : ℝ) :
    (strictly_in_domain s.x_scale_mode s.probability_is_percent_x xt ∧
     strictly_in_domain s.y_scale_mode s.probability_is_percent_y yt ∧
     add_pair_checked s xi yi xt yt =
       .ok { s with calib_pairs := s.calib_pairs ++ [((xi, yi), (xt, yt))] }) ∨
    (¬(strictly_in_domain s.x_scale_mode s.probability_is_percent_x xt ∧
       strictly_in_domain s.y_scale_mode s.probability_is_percent_y yt) ∧
     ∃ e, add_pair_checked s xi yi xt yt = .error e) := by
  cases hx : validate_calibration_value s.x_scale_mode s.probability_is_percent_x .x xt with
  | error e =>
      right
      refine ⟨fun h => ?_, e, by simp [add_pair_checked, hx]⟩
      rw [(validate_eq_ok_iff _ _ _ _).2 h.1] at hx
      exact Except.noConfusion hx
  | ok u =>
      cases u
      cases hy : validate_calibration_value s.y_scale_mode s.probability_is_percent_y .y yt with
      | error e =>
          right
          refine ⟨fun h => ?_, e, by simp [add_pair_checked, hx, hy]⟩
          rw [(validate_eq_ok_iff _ _ _ _).2 h.2] at hy
          exact Except.noConfusion hy
      | ok u =>
          cases u
          left
          exact ⟨(validate_eq_ok_iff _ _ _ _).1 hx, (validate_eq_ok_iff _ _ _ _).1 hy,
            by simp [add_pair_checked, hx, hy]⟩

lemma solve_transform_fields (s : DigitizerState) :
    (solve_transform s).calib_pairs = s.calib_pairs ∧
    (solve_transform s).data_points = s.data_points ∧
    (solve_transform s).x_scale_mode = s.x_scale_mode ∧
    (solve_transform s).y_scale_mode = s.y_scale_mode ∧
    (solve_transform s).probability_is_percent_x = s.probability_is_percent_x ∧
    (solve_transform s).probability_is_percent_y = s.probability_is_percent_y := by
  cases h : solve_transform_attempt s with
  | error e => simp [solve_transform, h]
  | ok p =>
      obtain ⟨tx, ty⟩ := p
      simp [solve_transform, h]

/-- C4: adding a calibration pair fails with a domain error exactly when a
true value lies outside its axis's domain (non-positive on a log axis,
outside the open interval (0, 1) for a fraction probability axis or (0, 100)
for a percent probability axis); a failed add leaves the state unchanged, a
successful add appends exactly the new in-domain pair, and hence every pair
ever stored has true values strictly inside both axes' domains. -/
theorem claim_C4_add_pair_domain_error (s : DigitizerState) (xi yi xt yt : ℝ) :
    ((∃ e, add_pair_checked s xi yi xt yt = .error e) ↔
      ¬(strictly_in_domain s.x_scale_mode s.probability_is_percent_x xt ∧
        strictly_in_domain s.y_scale_mode s.probability_is_percent_y yt)) ∧
    ((∃ e, add_pair_checked s xi yi xt yt = .error e) →
      ∀ cont, ask_true_coords s xi yi (some (xt, yt)) cont = s) ∧
    (∀ s', add_pair_checked s xi yi xt yt = .ok s' →
      s'.calib_pairs = s.calib_pairs ++ [((xi, yi), (xt, yt))] ∧
      strictly_in_domain s.x_scale_mode s.probability_is_percent_x xt ∧
      strictly_in_domain s.y_scale_mode s.probability_is_percent_y yt) ∧
    (∀ dialog cont,
      (∀ pr ∈ s.calib_pairs,
        strictly_in_domain s.x_scale_mode s.probability_is_percent_x pr.2.1 ∧
        strictly_in_domain s.y_scale_mode s.probability_is_percent_y pr.2.2) →
      ∀ pr ∈ (ask_true_coords s xi yi dialog cont).calib_pairs,
        strictly_in_domain s.x_scale_mode s.probability_is_percent_x pr.2.1 ∧
        strictly_in_domain s.y_scale_mode s.probability_is_percent_y pr.2.2) := by
  have hmain := add_pair_checked_cases s xi yi xt yt
  refine ⟨?_, ?_, ?_, ?_⟩
  · constructor
    · rintro ⟨e, he⟩
      rcases hmain with ⟨_, _, hok⟩ | ⟨hnot, _⟩
      · rw [hok] at he; exact Except.noConfusion he
      · exact hnot
    · intro hnot
      rcases hmain with ⟨hx, hy, _⟩ | ⟨_, he⟩
      · exact absurd ⟨hx, hy⟩ hnot
      · exact he
  · rintro ⟨e, he⟩ cont
    simp [ask_true_coords, he]
  · intro s' hok
    rcases hmain with ⟨hx, hy, h⟩ | ⟨_, e, he⟩
    · rw [h] at hok
      cases hok
      exact ⟨rfl, hx, hy⟩
    · rw [he] at hok; exact Except.noConfusion hok
  · intro dialog cont hinv
    cases dialog with
    | none => simpa [ask_true_coords] using hinv
    | some q =>
        obtain ⟨a, b⟩ := q
        cases hadd : add_pair_checked s xi yi a b with
        | error e => simpa [ask_true_coords, hadd] using hinv
        | ok s' =>
            rcases add_pair_checked_cases s xi yi a b with ⟨ha, hb, h⟩ | ⟨_, e, he⟩
            · rw [h] at hadd
              cases hadd
              have hpairs : ∀ pr ∈ s.calib_pairs ++ [((xi, yi), (a, b))],
                  strictly_in_domain s.x_scale_mode s.probability_is_percent_x pr.2.1 ∧
                  strictly_in_domain s.y_scale_mode s.probability_is_percent_y pr.2.2 := by
                intro pr hpr
                rcases List.mem_append.1 hpr with h1 | h1
                · exact hinv pr h1
                · rcases List.mem_singleton.1 h1 with rfl
                  exact ⟨ha, hb⟩
              intro pr hpr
              apply hpairs
              rcases cont with _ | _
              · simp only [ask_true_coords, h, Bool.false_eq_true, if_false] at hpr
                rwa [(solve_transform_fields _).1] at hpr
              · simpa [ask_true_coords, h] using hpr
            · rw [he] at hadd; exact Except.noConfusion hadd

/-- Witness for C4: with a log x axis and linear y axis, adding the pair with
true values (-1, 5) fails (negative value on the log axis) and leaves the
state unchanged; the stored-pair invariant holds for the resulting state. -/
theorem claim_C4_witness :
    (∃ e, add_pair_checked (init_state .log .linear false false) 3 4 (-1) 5 = .error e) ∧
    ask_true_coords (init_state .log .linear false false) 3 4 (some (-1, 5)) true
      = init_state .log .linear false false := by
  have h := claim_C4_add_pair_domain_error (init_state .log .linear false false) 3 4 (-1) 5
  have herr : ∃ e, add_pair_checked (init_state .log .linear false false) 3 4 (-1) 5
      = .error e := by
    apply h.1.2
    rintro ⟨hx, _⟩
    have : (0 : ℝ) < -1 := hx
    norm_num at this
  exact ⟨herr, h.2.1 herr true⟩

/-! ## The fit decision of `_solve_transform` -/

lemma solve_attempt_cases (s : DigitizerState) (h : ¬ s.calib_pairs.length < 2) :
    (∃ maps, solve_transform_attempt s = .ok maps) ∨
    (∃ e, solve_transform_attempt s = .error (.fitFailed e)) := by
  cases hx : fit_axis s.x_scale_mode s.probability_is_percent_x
      (s.calib_pairs.map fun p => p.1.1) (s.calib_pairs.map fun p => p.2.1) with
  | error e => exact .inr ⟨e, by simp [solve_transform_attempt, if_neg h, hx]⟩
  | ok tx =>
      cases hy : fit_axis s.y_scale_mode s.probability_is_percent_y
          (s.calib_pairs.map fun p => p.1.2) (s.calib_pairs.map fun p => p.2.2) with
      | error e => exact .inr ⟨e, by simp [solve_transform_attempt, if_neg h, hx, hy]⟩
      | ok ty => exact .inl ⟨(tx, ty), by simp [solve_transform_attempt, if_neg h, hx, hy]⟩

/-- C5: the fit of `_solve_transform` fails with the insufficient-data error
exactly when fewer than two calibration pairs have been accumulated; with two
or more pairs it gets past that check, i.e. it either returns both fitted
maps or fails with a fit error, never with the insufficient-data error. -/
theorem claim_C5_insufficient_data (s : DigitizerState) :
    (solve_transform_attempt s = .error .insufficientData ↔ s.calib_pairs.length < 2) ∧
    (¬ s.calib_pairs.length < 2 →
      (∃ maps, solve_transform_attempt s = .ok maps) ∨
      (∃ e, solve_transform_attempt s = .error (.fitFailed e))) := by
  refine ⟨⟨fun he => ?_, fun hlt => by simp [solve_transform_attempt, if_pos hlt]⟩,
    solve_attempt_cases s⟩
  by_contra hn
  rcases solve_attempt_cases s hn with ⟨maps, hm⟩ | ⟨e, hm⟩ <;> rw [hm] at he <;>
    simp at he

/-- Witness for C5: the fresh session (zero pairs) fails with insufficient
data, and a session with two pairs on linear axes gets past the check. -/
theorem claim_C5_witness :
    solve_transform_attempt (init_state .linear .linear false false)
      = .error .insufficientData ∧
    ((∃ maps, solve_transform_attempt
        { init_state .linear .linear false false with
          calib_pairs := [((0, 0), (0, 0)), ((1, 1), (1, 1))] } = .ok maps) ∨
     (∃ e, solve_transform_attempt
        { init_state .linear .linear false false with
          calib_pairs := [((0, 0), (0, 0)), ((1, 1), (1, 1))] }
          = .error (.fitFailed e))) :=
  ⟨(claim_C5_insufficient_data _).1.2 (by simp [init_state]),
   (claim_C5_insufficient_data _).2 (by simp [init_state])⟩

/-- C7: `_screen_to_image` divides the offset-corrected screen coordinates by
the scale when the scale is nonzero, and degrades to the identity when the
scale is zero. -/
theorem claim_C7_screen_to_image (s : DigitizerState) (sx sy : ℝ) :
    (s.scale ≠ 0 → screen_to_image s sx sy
        = ((sx - s.offset_x) / s.scale, (sy - s.offset_y) / s.scale)) ∧
    (s.scale = 0 → screen_to_image s sx sy = (sx, sy)) := by
  constructor <;> intro h <;> simp [screen_to_image, h]

/-- Witness for C7: both branches at concrete viewport states. -/
theorem claim_C7_witness :
    screen_to_image { init_state .linear .linear false false with
        offset_x := 4, offset_y := 6, scale := 2 } 10 16 = (3, 5) ∧
    screen_to_image { init_state .linear .linear false false with scale := 0 } 10 16
      = (10, 16) := by
  constructor
  · rw [(claim_C7_screen_to_image _ 10 16).1 (by norm_num [init_state])]
    norm_num [init_state]
  · exact (claim_C7_screen_to_image _ 10 16).2 (by norm_num [init_state])

/-- C8: a middle-drag pan adds the drag delta to the offsets, never changes
the scale, and shifts the screen-to-image conversion of any fixed screen
point by minus the delta over the scale. -/
theorem claim_C8_pan_shifts (s : DigitizerState) (px py evx evy sx sy : ℝ)
    (hpan : s.pan_start = some (px, py)) (himg : s.image_id = some ())
    (hscale : s.scale ≠ 0) :
    (on_middle_drag s evx evy).scale = s.scale ∧
    (on_middle_drag s evx evy).offset_x = s.offset_x + (evx - px) ∧
    (on_middle_drag s evx evy).offset_y = s.offset_y + (evy - py) ∧
    screen_to_image (on_middle_drag s evx evy) sx sy
      = ((screen_to_image s sx sy).1 - (evx - px) / s.scale,
         (screen_to_image s sx sy).2 - (evy - py) / s.scale) := by
  have hdrag : on_middle_drag s evx evy =
      { s with offset_x := s.offset_x + (evx - px)
               offset_y := s.offset_y + (evy - py)
               pan_start := some (evx, evy) } := by
    simp [on_middle_drag, hpan, himg]
  refine ⟨by rw [hdrag], by rw [hdrag], by rw [hdrag], ?_⟩
  rw [hdrag]
  simp only [screen_to_image, hscale, if_neg hscale]
  rw [Prod.mk.injEq]
  constructor <;> field_simp <;> ring

/-- Witness for C8: a concrete pan by (5, -2) at scale 2 shifts the converted
point by (-2.5, 1). -/
theorem claim_C8_witness :
    screen_to_image (on_middle_drag
      { init_state .linear .linear false false with
        scale := 2, pan_start := some (1, 2), image_id := some () } 6 0) 10 16
      = ((screen_to_image { init_state .linear .linear false false with
            scale := 2, pan_start := some (1, 2), image_id := some () } 10 16).1 - 5 / 2,
         (screen_to_image { init_state .linear .linear false false with
            scale := 2, pan_start := some (1, 2), image_id := some () } 10 16).2 - (-2) / 2) := by
  have h := (claim_C8_pan_shifts
    { init_state .linear .linear false false with
      scale := 2, pan_start := some (1, 2), image_id := some () } 1 2 6 0 10 16
    rfl rfl (by norm_num [init_state])).2.2.2
  convert h using 2 <;> norm_num

/-- C6: with an image loaded and a nonzero current scale, a wheel-zoom step
at cursor (cx, cy) sets the new scale to the old scale times 1.1 (zooming in)
or 1/1.1 (zooming out) clamped to [0.1, 10], recomputes each offset as
cursor - (cursor - offset) * (newScale / oldScale), and therefore leaves
`_screen_to_image` at the cursor position unchanged, including when the
clamp is active. -/
theorem claim_C6_zoom_invariant (s : DigitizerState) (zoomIn : Bool) (cx cy : ℝ)
    (himg : s.orig_img = some ()) (hid : s.image_id = some ())
    (hscale : s.scale ≠ 0) :
    (on_zoom s zoomIn cx cy).scale
        = max 0.1 (min (s.scale * (if zoomIn then (1.1 : ℝ) else 1 / 1.1)) 10) ∧
    (on_zoom s zoomIn cx cy).offset_x
        = cx - (cx - s.offset_x) * ((on_zoom s zoomIn cx cy).scale / s.scale) ∧
    (on_zoom s zoomIn cx cy).offset_y
        = cy - (cy - s.offset_y) * ((on_zoom s zoomIn cx cy).scale / s.scale) ∧
    screen_to_image (on_zoom s zoomIn cx cy) cx cy = screen_to_image s cx cy := by
  have hzoom : on_zoom s zoomIn cx cy =
      { s with scale := max 0.1 (min (s.scale * (if zoomIn then (1.1 : ℝ) else 1 / 1.1)) 10)
               offset_x := cx - (cx - s.offset_x)
                  * (max 0.1 (min (s.scale * (if zoomIn then (1.1 : ℝ) else 1 / 1.1)) 10) / s.scale)
               offset_y := cy - (cy - s.offset_y)
                  * (max 0.1 (min (s.scale * (if zoomIn then (1.1 : ℝ) else 1 / 1.1)) 10) / s.scale) } := by
    simp [on_zoom, himg, hid]
  have hns : (0 : ℝ) < max 0.1 (min (s.scale * (if zoomIn then (1.1 : ℝ) else 1 / 1.1)) 10) :=
    lt_of_lt_of_le (by norm_num) (le_max_left _ _)
  refine ⟨by rw [hzoom], by rw [hzoom], by rw [hzoom], ?_⟩
  rw [hzoom]
  simp only [screen_to_image, if_neg hscale, if_neg hns.ne']
  rw [Prod.mk.injEq]
  constructor <;> field_simp <;> ring

/-- Witness for C6: zooming in at cursor (3, 4) from a concrete state with
scale 9.5 (so the clamp at 10 is active) keeps the cursor's image point
fixed. -/
theorem claim_C6_witness :
    (on_zoom { init_state .linear .linear false false with
        scale := 9.5, orig_img := some (), image_id := some () } true 3 4).scale
      = max 0.1 (min (9.5 * (1.1 : ℝ)) 10) ∧
    screen_to_image (on_zoom { init_state .linear .linear false false with
        scale := 9.5, orig_img := some (), image_id := some () } true 3 4) 3 4
      = screen_to_image { init_state .linear .linear false false with
          scale := 9.5, orig_img := some (), image_id := some () } 3 4 := by
  have h := claim_C6_zoom_invariant
    { init_state .linear .linear false false with
      scale := 9.5, orig_img := some (), image_id := some () } true 3 4
    rfl rfl (by norm_num [init_state])
  exact ⟨by simpa using h.1, h.2.2.2⟩

/-! ## Shape lemmas for the state machine -/

lemma add_pair_checked_ok_shape (s : DigitizerState) (xi yi xt yt : ℝ)
    (s' : DigitizerState) (h : add_pair_checked s xi yi xt yt = .ok s') :
    s' = { s with calib_pairs := s.calib_pairs ++ [((xi, yi), (xt, yt))] } := by
  rcases add_pair_checked_cases s xi yi xt yt with ⟨_, _, hok⟩ | ⟨_, e, he⟩
  · rw [hok] at h
    exact (Except.ok.inj h).symm
  · rw [he] at h
    exact Except.noConfusion h

lemma solve_transform_of_error {s : DigitizerState}
    (h : ∃ e, solve_transform_attempt s = .error e) : solve_transform s = s := by
  rcases h with ⟨e, he⟩
  simp [solve_transform, he]

lemma solve_transform_of_ok {s : DigitizerState} {tx ty : ℝ × ℝ}
    (h : solve_transform_attempt s = .ok (tx, ty)) :
    solve_transform s = { s with transform_x := tx, transform_y := ty, mode := .DATA } := by
  simp [solve_transform, h]

lemma ask_true_coords_data_points (s : DigitizerState) (xi yi : ℝ)
    (d : Option (ℝ × ℝ)) (c : Bool) :
    (ask_true_coords s xi yi d c).data_points = s.data_points := by
  cases d with
  | none => rfl
  | some q =>
      obtain ⟨a, b⟩ := q
      cases ha : add_pair_checked s xi yi a b with
      | error e => simp [ask_true_coords, ha]
      | ok s' =>
          have hs' := add_pair_checked_ok_shape s xi yi a b s' ha
          cases c with
          | true => simp [ask_true_coords, ha, hs']
          | false =>
              simp only [ask_true_coords, ha, Bool.false_eq_true, if_false]
              rw [(solve_transform_fields s').2.1, hs']

lemma handle_event_mode_cases (s : DigitizerState) (e : Event) :
    (handle_event s e).mode = s.mode ∨
    (s.mode = .CALIB ∧ ∃ s' tx ty, solve_transform_attempt s' = .ok (tx, ty) ∧
      handle_event s e = solve_transform s') := by
  cases e with
  | middlePress evx evy => exact .inl rfl
  | middleRelease => exact .inl rfl
  | middleDrag evx evy =>
      left
      cases hp : s.pan_start with
      | none => simp [handle_event, on_middle_drag, hp]
      | some q =>
          obtain ⟨px, py⟩ := q
          cases hi : s.image_id with
          | none => simp [handle_event, on_middle_drag, hp, hi]
          | some u => simp [handle_event, on_middle_drag, hp, hi]
  | wheel dir cx cy =>
      left
      cases ho : s.orig_img with
      | none => simp [handle_event, on_zoom, ho]
      | some u =>
          cases hi : s.image_id with
          | none => simp [handle_event, on_zoom, ho, hi]
          | some w => simp [handle_event, on_zoom, ho, hi]
  | click evx evy d c =>
      cases hm : s.mode with
      | DATA => exact .inl (by simp [handle_event, on_click, hm])
      | CALIB =>
          have hstep : handle_event s (Event.click evx evy d c)
              = ask_true_coords s (screen_to_image s evx evy).1
                  (screen_to_image s evx evy).2 d c := by
            simp [handle_event, on_click, hm]
          rw [hstep]
          cases d with
          | none => exact .inl hm
          | some q =>
              obtain ⟨a, b⟩ := q
              cases ha : add_pair_checked s (screen_to_image s evx evy).1
                  (screen_to_image s evx evy).2 a b with
              | error er => exact .inl (by simp [ask_true_coords, ha, hm])
              | ok s' =>
                  have hs' := add_pair_checked_ok_shape _ _ _ _ _ _ ha
                  cases c with
                  | true =>
                      left
                      simp only [ask_true_coords, ha, if_pos]
                      rw [hs']
                      exact hm
                  | false =>
                      cases hat : solve_transform_attempt s' with
                      | error er =>
                          left
                          have hq : ask_true_coords s (screen_to_image s evx evy).1
                              (screen_to_image s evx evy).2 (some (a, b)) false = s' := by
                            simp [ask_true_coords, ha, solve_transform_of_error ⟨er, hat⟩]
                          rw [hq, hs']
                          exact hm
                      | ok p =>
                          obtain ⟨tx, ty⟩ := p
                          exact .inr ⟨rfl, s', tx, ty, hat, by simp [ask_true_coords, ha]⟩

/-- C9: the session starts in calibration mode; data mode, once entered, is
never left; the only transition from calibration mode to data mode is a
successful `_solve_transform` (which requires at least two pairs and both
axis fits to succeed); a click while calibrating is routed to the
calibration input flow and never touches the data list, and a click while
collecting appends the transformed image point to the end of the data
list. -/
theorem claim_C9_session_state_machine :
    (∀ xm ym px py, (init_state xm ym px py).mode = .CALIB) ∧
    (∀ s e, s.mode = .DATA → (handle_event s e).mode = .DATA) ∧
    (∀ s e, s.mode = .CALIB → (handle_event s e).mode = .DATA →
      ∃ s' tx ty, solve_transform_attempt s' = .ok (tx, ty) ∧
        handle_event s e = solve_transform s') ∧
    (∀ s (evx evy : ℝ) d c, s.mode = .CALIB →
      handle_event s (.click evx evy d c)
        = ask_true_coords s (screen_to_image s evx evy).1 (screen_to_image s evx evy).2 d c ∧
      (handle_event s (.click evx evy d c)).data_points = s.data_points) ∧
    (∀ s (evx evy : ℝ) d c, s.mode = .DATA →
      handle_event s (.click evx evy d c)
        = { s with data_points := s.data_points
            ++ [apply_transform s (screen_to_image s evx evy).1
                  (screen_to_image s evx evy).2] }) := by
  refine ⟨fun _ _ _ _ => rfl, ?_, ?_, ?_, ?_⟩
  · intro s e hm
    rcases handle_event_mode_cases s e with h | ⟨hc, _⟩
    · rw [h, hm]
    · rw [hm] at hc
      exact Mode.noConfusion hc
  · intro s e hc hd
    rcases handle_event_mode_cases s e with h | ⟨_, w⟩
    · rw [h, hc] at hd
      exact Mode.noConfusion hd
    · exact w
  · intro s evx evy d c hm
    have hstep : handle_event s (.click evx evy d c)
        = ask_true_coords s (screen_to_image s evx evy).1
            (screen_to_image s evx evy).2 d c := by
      simp [handle_event, on_click, hm]
    exact ⟨hstep, by rw [hstep, ask_true_coords_data_points]⟩
  · intro s evx evy d c hm
    simp [handle_event, on_click, hm]

/-- Witness for C9: a fresh session is calibrating, and a click in a
data-mode state keeps the session in data mode. -/
theorem claim_C9_witness :
    (init_state .linear .linear false false).mode = Mode.CALIB ∧
    (handle_event { init_state .linear .linear false false with mode := .DATA }
        (.click 1 2 none true)).mode = Mode.DATA :=
  ⟨claim_C9_session_state_machine.1 .linear .linear false false,
   claim_C9_session_state_machine.2.1 _ _ rfl⟩

/-- C10: whenever the fit attempt of `_solve_transform` fails for any reason
(fewer than two pairs, or a validation error raised while fitting either
axis), the session state is completely unchanged: in particular both affine
maps, the mode and the calibration-pair list keep their previous values. -/
theorem claim_C10_failed_fit_preserves_state (s : DigitizerState)
    (h : ∃ e, solve_transform_attempt s = .error e) :
    solve_transform s = s ∧
    (solve_transform s).transform_x = s.transform_x ∧
    (solve_transform s).transform_y = s.transform_y ∧
    (solve_transform s).mode = s.mode ∧
    (solve_transform s).calib_pairs = s.calib_pairs := by
  have he := solve_transform_of_error h
  exact ⟨he, by rw [he], by rw [he], by rw [he], by rw [he]⟩

/-- Witness for C10: a session with a single calibration pair fails the fit
(insufficient data) and is left unchanged. -/
theorem claim_C10_witness :
    solve_transform { init_state .linear .linear false false with
        calib_pairs := [((0, 0), (1, 1))] }
      = { init_state .linear .linear false false with
          calib_pairs := [((0, 0), (1, 1))] } :=
  (claim_C10_failed_fit_preserves_state _
    ⟨.insufficientData, by norm_num [solve_transform_attempt, init_state]⟩).1
